import Mathlib

/-!
# Verification of `adversarial_attack/utils/utils.py`

Shallow embedding of the two core routines of the repository:

* `validate` (utils.py, lines 104-138): runs a model over a sequence of
  labeled image batches (or over a batch-aligned adversarial set), takes the
  per-image arg-max of the model's probability output, counts matches against
  the labels, and returns `acc * 100 / dataset_size`.
* `scale_adv` (utils.py, lines 155-187): looks an interpolation name up in a
  fixed dictionary, then resizes every image of every batch with OpenCV's
  `cv2.resize`, converting channel-first to channel-last and back with
  `np.moveaxis`.

Images are modelled as 3-dimensional arrays of rationals; Python / numpy
floats appear only in two places (the final accuracy division and the
progress display), and are modelled exactly where their semantics matters:
the final division is a numpy-float division as soon as one loop iteration
has run (`acc += np.sum(...)` promotes `acc` to `np.float64`), which on a
zero denominator silently yields `inf` or `nan` instead of raising, while an
empty loader leaves `acc` a Python `float` whose division by the integer `0`
raises `ZeroDivisionError`.
-/

namespace AdvAttack

/-! ## Python-level value and error model for `validate` -/

/-- Result of the floating-point accuracy computation: a finite value (the
counts involved are small integers, so the interesting cases are exactly
representable), positive infinity, or NaN.  The latter two arise from numpy
float division by a zero `dataset_size`. -/
inductive PyFloat where
  | val (q : Rat)
  | posInf
  | nan
deriving Repr, DecidableEq

/-- Python exceptions that the `validate` loop can raise:
`ZeroDivisionError` from a Python-float division by integer zero, and
`IndexError` from `advs[i]` when the adversarial set is shorter than the
loader. -/
inductive PyErr where
  | zeroDivisionError
  | indexError
deriving Repr, DecidableEq

/-- `np.argmax` on a probability vector: index of the first maximal element
(numpy keeps the current maximum and replaces it only on a strictly greater
value). `np.argmax` raises on an empty array; models always return a
non-empty probability vector, and the `[]` case never feeds any claim. -/
def argmaxAux (i best : Nat) (bv : Rat) : List Rat → Nat
  | [] => best
  | x :: xs => if bv < x then argmaxAux (i + 1) i x xs else argmaxAux (i + 1) best bv xs

/-- `np.argmax` over one probability vector. -/
def argmax : List Rat → Nat
  | [] => 0
  | x :: xs => argmaxAux 1 0 x xs

/-- `np.sum(pred == label.numpy())`: elementwise comparison of the predicted
class indices against the labels, summed.  (Both arrays have one entry per
image of the batch.) -/
def matchCount (pred label : List Nat) : Nat :=
  (List.zip pred label).countP fun p => p.1 = p.2

/-- The body of `validate`'s `for i, (image, label) in enumerate(dl_iter)`
loop (utils.py lines 121-135), processing the remaining batches.

State threaded through: the running batch index `i` and the running match
count `acc`.  Returned: the final count, the `preds` list of per-batch
arg-max arrays, and the list of progress-display values
`acc * 100 / ((i + 1) * batch_size)` shown when not `silent` (display only;
the float formatting of the progress bar is not modelled, the rational value
displayed is). -/
def valLoop {Img : Type} (fmodel : Img → List Rat)
    (advs : Option (List (List Img))) (batch_size : Nat) (silent : Bool) :
    List (List Img × List Nat) → Nat → Nat →
    Except PyErr (Nat × List (List Nat) × List Rat)
  | [], _, acc => .ok (acc, [], [])
  | (image, label) :: rest, i, acc => do
      -- make a prediction on either original dataset or adversaries
      let probInput ← match advs with
        | none => pure image
        | some a => match a[i]? with
          | some b => pure b
          | none => throw .indexError
      let pred := probInput.map fun img => argmax (fmodel img)
      -- calculate current accuracy
      let acc' := acc + matchCount pred label
      let current_acc : Rat := acc' * 100 / (((i : Rat) + 1) * batch_size)
      let (accFin, preds, log) ← valLoop fmodel advs batch_size silent rest (i + 1) acc'
      .ok (accFin, pred :: preds, if silent then log else current_acc :: log)

/-- `validate(fmodel, dataset_loader, dataset_size, batch_size=4, advs=None,
silent=False)` (utils.py lines 104-138).

The model is embedded per-image (`fmodel.forward` maps a batch to one
probability vector per image, per the data model); the loader is the list of
its `(image, label)` batches.  The final `acc = acc * 100 / dataset_size`
division: after at least one loop iteration `acc` is an `np.float64`
(promoted by `acc += np.sum(...)`), so a zero `dataset_size` silently gives
`nan` (zero count) or `+inf` (positive count); with an empty loader `acc` is
still the Python float `0.0` and division by the integer `0` raises
`ZeroDivisionError`. -/
def validate {Img : Type} (fmodel : Img → List Rat)
    (dataset_loader : List (List Img × List Nat)) (dataset_size : Nat)
    (batch_size : Nat) (advs : Option (List (List Img)))
    (silent : Bool) : Except PyErr PyFloat := do
  let (acc, _preds, _log) ← valLoop fmodel advs batch_size silent dataset_loader 0 0
  if dataset_size = 0 then
    if dataset_loader.isEmpty then
      throw .zeroDivisionError
    else
      pure (if acc = 0 then .nan else .posInf)
  else
    pure (.val (acc * 100 / (dataset_size : Rat)))

/-- Total arg-max match count over a whole loader: the specification-side
recount of what the loop accumulates. -/
def totalMatches {Img : Type} (fmodel : Img → List Rat)
    (dataset_loader : List (List Img × List Nat)) : Nat :=
  (dataset_loader.map fun b =>
    matchCount (b.1.map fun img => argmax (fmodel img)) b.2).sum

/-! ## Arrays and `scale_adv` -/

/-- A 3-dimensional numpy array of shape `(d0, d1, d2)` with row-major
flattened data.  Adversarial images are stored channel-first, shape
`(channels, height, width)`; inside `scale_adv` they pass through a
channel-last `(height, width, channels)` view. -/
structure Arr3 where
  d0 : Nat
  d1 : Nat
  d2 : Nat
  data : List Rat
deriving Repr, DecidableEq

/-- Row-major element access `a[i, j, k]` (out-of-range reads return `0`;
all generated indices are in range). -/
def Arr3.get (a : Arr3) (i j k : Nat) : Rat :=
  a.data.getD ((i * a.d1 + j) * a.d2 + k) 0

/-- `np.moveaxis(a, 0, 2)`: shape `(C, H, W)` becomes `(H, W, C)`, with
`new[i, j, k] = a[k, i, j]`. -/
def moveaxis02 (a : Arr3) : Arr3 :=
  ⟨a.d1, a.d2, a.d0,
    (List.range a.d1).flatMap fun i =>
      (List.range a.d2).flatMap fun j =>
        (List.range a.d0).map fun k => a.get k i j⟩

/-- `np.moveaxis(a, 2, 0)`: shape `(H, W, C)` becomes `(C, H, W)`, with
`new[i, j, k] = a[j, k, i]`. -/
def moveaxis20 (a : Arr3) : Arr3 :=
  ⟨a.d2, a.d0, a.d1,
    (List.range a.d2).flatMap fun i =>
      (List.range a.d0).flatMap fun j =>
        (List.range a.d1).map fun k => a.get j k i⟩

/-- Errors out of `scale_adv`: the `KeyError` from the dictionary lookup of
an unknown interpolation name, and the `cv2.error` raised by `cv2.resize`'s
size assertions.  `badRef` is an artefact of the store-passing variant only
(a dangling reference, impossible for well-formed inputs). -/
inductive CvErr where
  | keyError (k : String)
  | cvError
  | badRef
deriving Repr, DecidableEq

/-- The `interpolation_methods` dictionary of `scale_adv` (utils.py lines
158-164), mapping names to OpenCV's numeric interpolation flags. -/
def interpolation_methods : List (String × Nat) :=
  [("INTER_NEAREST", 0),
   ("INTER_LINEAR", 1),
   ("INTER_AREA", 3),
   ("INTER_CUBIC", 2),
   ("INTER_LANCZOS4", 4)]

/-- OpenCV's `cvRound`: round half to even, used by `cv2.resize` to derive
the destination size from `fx`/`fy`. -/
def cvRound (x : Rat) : Int :=
  if x - ⌊x⌋ < 1/2 then ⌊x⌋
  else if 1/2 < x - ⌊x⌋ then ⌊x⌋ + 1
  else if 2 ∣ ⌊x⌋ then ⌊x⌋ else ⌊x⌋ + 1

/-- The payload of an interpolation kernel: given the flag, the scale, the
channel-last source array and the destination height and width, produce the
destination data.  Modelled from the spec: the pixel-level resampling of the
five OpenCV kernels lives inside `cv2.resize`, outside this repository, and
the spec pins only the size behaviour ("exact rounding behavior at
boundaries is library-defined"); every theorem below holds for an arbitrary
kernel. -/
abbrev Kernel := Nat → Rat → Arr3 → Nat → Nat → List Rat

/-- `cv2.resize(src, (0, 0), fx=s, fy=s, interpolation=interp)` on a
channel-last `(H, W, C)` array: per OpenCV, assert the source size is
non-empty, assert `fx > 0` and `fy > 0`, compute the destination size as
`(cvRound(W * s), cvRound(H * s))`, assert it is non-empty, and resample. -/
def cv2Resize (K : Kernel) (interp : Nat) (s : Rat) (src : Arr3) :
    Except CvErr Arr3 :=
  if src.d0 = 0 ∨ src.d1 = 0 then .error .cvError
  else if s ≤ 0 then .error .cvError
  else if cvRound (src.d0 * s) ≤ 0 ∨ cvRound (src.d1 * s) ≤ 0 then .error .cvError
  else .ok ⟨(cvRound (src.d0 * s)).toNat, (cvRound (src.d1 * s)).toNat, src.d2,
    K interp s src (cvRound (src.d0 * s)).toNat (cvRound (src.d1 * s)).toNat⟩

/-- Inner loop of `scale_adv` (utils.py lines 171-179): resize each image of
one batch, converting channel-first to channel-last and back. -/
def scaleBatch (K : Kernel) (interp : Nat) (s : Rat) :
    List Arr3 → Except CvErr (List Arr3)
  | [] => .ok []
  | adv :: rest => do
      let resized_adv ← cv2Resize K interp s (moveaxis02 adv)
      let rs ← scaleBatch K interp s rest
      .ok (moveaxis20 resized_adv :: rs)

/-- Outer loop of `scale_adv` (utils.py lines 169-180): one resized batch
per input batch.  (`np.array(resized_adv_batch)` stacks the resized images
into one fresh array; the batch is modelled as the list of its images.) -/
def scaleAll (K : Kernel) (interp : Nat) (s : Rat) :
    List (List Arr3) → Except CvErr (List (List Arr3))
  | [] => .ok []
  | adv_batch :: rest => do
      let rb ← scaleBatch K interp s adv_batch
      let rs ← scaleAll K interp s rest
      .ok (rb :: rs)

/-- `scale_adv(advs, resize_scale, interpolation_method)` (utils.py lines
155-187): look the interpolation name up in the dictionary (a `KeyError`
escapes before any image is touched), then resize every image of every
batch. -/
def scale_adv (K : Kernel) (advs : List (List Arr3)) (resize_scale : Rat)
    (interpolation_method : String) : Except CvErr (List (List Arr3)) := do
  let interpolation ← match interpolation_methods.lookup interpolation_method with
    | some v => pure v
    | none => throw (.keyError interpolation_method)
  scaleAll K interpolation resize_scale advs

/-! ## Batch partitioning (for the batch-size-invariance property)

`torch.utils.data.DataLoader(dataset, batch_size=k)` (utils.py line 91,
without shuffling) cuts the fixed sequence of `(image, label)` items into
successive chunks of `k` items, the last chunk possibly shorter. -/

/-- Successive chunks of `k` elements (`k ≥ 1`; the last chunk may be
shorter). -/
def chunks {α : Type} (k : Nat) : List α → List (List α)
  | [] => []
  | x :: xs => (x :: xs.take (k - 1)) :: chunks k (xs.drop (k - 1))
termination_by l => l.length
decreasing_by simp; omega

/-- A DataLoader over a fixed item sequence: chunk it, then split each chunk
into its image column and its label column. -/
def batchify {Img : Type} (k : Nat) (items : List (Img × Nat)) :
    List (List Img × List Nat) :=
  (chunks k items).map List.unzip

/-! ## Store-passing elaboration of `scale_adv`

To state the frame property (inputs never mutated, output freshly built) the
arrays live in an explicit store; input batches hold references into it and
every array built by the loop is a fresh allocation at the end of the store.
This is the same translation of utils.py lines 166-187 as `scale_adv` above,
with the numpy heap made explicit. -/

/-- The heap of numpy arrays: a reference is an index into this list, and
`alloc` appends. -/
abbrev Store := List Arr3

/-- Store-passing inner loop of `scale_adv`: resize each referenced image of
one batch, allocating each result as a fresh array. -/
def scaleBatchSt (K : Kernel) (interp : Nat) (s : Rat) :
    Store → List Nat → Except CvErr (Store × List Nat)
  | st, [] => .ok (st, [])
  | st, a :: rest => do
      let src ← match st[a]? with
        | some v => pure v
        | none => throw .badRef
      let resized_adv ← cv2Resize K interp s (moveaxis02 src)
      let (st2, rs) ← scaleBatchSt K interp s (st ++ [moveaxis20 resized_adv]) rest
      .ok (st2, st.length :: rs)

/-- Store-passing outer loop of `scale_adv`. -/
def scaleAllSt (K : Kernel) (interp : Nat) (s : Rat) :
    Store → List (List Nat) → Except CvErr (Store × List (List Nat))
  | st, [] => .ok (st, [])
  | st, adv_batch :: rest => do
      let (st1, rb) ← scaleBatchSt K interp s st adv_batch
      let (st2, rs) ← scaleAllSt K interp s st1 rest
      .ok (st2, rb :: rs)

/-- Store-passing `scale_adv`: the input is a nested sequence of references
into the store; the result is the grown store and the references of the
freshly built output arrays. -/
def scale_adv_st (K : Kernel) (st : Store) (advs : List (List Nat))
    (resize_scale : Rat) (interpolation_method : String) :
    Except CvErr (Store × List (List Nat)) := do
  let interpolation ← match interpolation_methods.lookup interpolation_method with
    | some v => pure v
    | none => throw (.keyError interpolation_method)
  scaleAllSt K interpolation resize_scale st advs

/-! ## Concrete inputs used by witnesses and counterexamples -/

/-- A concrete model over `Nat`-coded images: image `1` gets probability
vector `[0, 1]` (arg-max class `1`), every other image gets `[1, 0]`
(arg-max class `0`). -/
def f75 (n : Nat) : List Rat :=
  if n = 1 then [0, 1] else [1, 0]

/-- Concrete loader: 2 batches of 2 images, labels `[0, 1, 1, 0]`; under
`f75` the predictions are `[0, 1, 0, 0]`, so 3 of 4 match. -/
def ds75 : List (List Nat × List Nat) :=
  [([0, 1], [0, 1]), ([2, 3], [1, 0])]

/-- A concrete (trivial) interpolation kernel payload, used only to
instantiate kernel-polymorphic theorems at a concrete input. -/
def trivKern : Kernel := fun _ _ _ _ _ => []

/-- A concrete 3-channel 10×10 image (channel-first), all zeros. -/
def img3x10x10 : Arr3 := ⟨3, 10, 10, List.replicate 300 0⟩

/-- A concrete 3-channel 2×2 image (channel-first), all zeros. -/
def img3x2x2 : Arr3 := ⟨3, 2, 2, List.replicate 12 0⟩

/-! ## Helper lemmas about the `validate` loop -/

/-- With no adversarial set, the loop never raises and its accumulated count
is the starting count plus the total arg-max match count of the remaining
batches (the `preds` and progress components are irrelevant here). -/
theorem valLoop_none_fst {Img : Type} (fmodel : Img → List Rat)
    (batch_size : Nat) (silent : Bool) :
    ∀ (ds : List (List Img × List Nat)) (i acc : Nat),
    (valLoop fmodel none batch_size silent ds i acc).map Prod.fst =
      .ok (acc + totalMatches fmodel ds) := by
  intro ds
  induction ds with
  | nil => intro i acc; simp [valLoop, totalMatches, Except.map]
  | cons b rest ih =>
    intro i acc
    obtain ⟨image, label⟩ := b
    have h := ih (i + 1) (acc + matchCount (image.map fun img => argmax (fmodel img)) label)
    cases hv : valLoop fmodel none batch_size silent rest (i + 1)
        (acc + matchCount (image.map fun img => argmax (fmodel img)) label) with
    | error e => rw [hv] at h; simp [Except.map] at h
    | ok t =>
      rw [hv] at h
      simp only [Except.map] at h
      injection h with h
      simp [valLoop, hv, Bind.bind, Except.bind, Pure.pure, Except.pure, Except.map,
        totalMatches, h]
      simp [totalMatches] at h ⊢
      omega

/-- The accumulated count and the raised error of the loop do not depend on
`batch_size` or `silent`, which feed only the `preds`/progress components. -/
theorem valLoop_fst_congr {Img : Type} (fmodel : Img → List Rat)
    (advs : Option (List (List Img))) (bs₁ bs₂ : Nat) (s₁ s₂ : Bool) :
    ∀ (ds : List (List Img × List Nat)) (i acc : Nat),
    (valLoop fmodel advs bs₁ s₁ ds i acc).map Prod.fst =
      (valLoop fmodel advs bs₂ s₂ ds i acc).map Prod.fst := by
  intro ds
  induction ds with
  | nil => intro i acc; simp [valLoop]
  | cons b rest ih =>
    intro i acc
    obtain ⟨image, label⟩ := b
    cases advs with
    | none =>
      have h := ih (i + 1) (acc + matchCount (image.map fun img => argmax (fmodel img)) label)
      cases hv₁ : valLoop fmodel none bs₁ s₁ rest (i + 1)
          (acc + matchCount (image.map fun img => argmax (fmodel img)) label) with
      | error e =>
        rw [hv₁] at h
        cases hv₂ : valLoop fmodel none bs₂ s₂ rest (i + 1)
            (acc + matchCount (image.map fun img => argmax (fmodel img)) label) with
        | error e' =>
          rw [hv₂] at h; simp [Except.map] at h
          simp [valLoop, hv₁, hv₂, Bind.bind, Except.bind, Pure.pure, Except.pure,
            Except.map, h]
        | ok t => rw [hv₂] at h; simp [Except.map] at h
      | ok t =>
        rw [hv₁] at h
        cases hv₂ : valLoop fmodel none bs₂ s₂ rest (i + 1)
            (acc + matchCount (image.map fun img => argmax (fmodel img)) label) with
        | error e' => rw [hv₂] at h; simp [Except.map] at h
        | ok t' =>
          rw [hv₂] at h; simp [Except.map] at h
          simp [valLoop, hv₁, hv₂, Bind.bind, Except.bind, Pure.pure, Except.pure,
            Except.map, h]
    | some a =>
      cases ha : a[i]? with
      | none =>
        simp [valLoop, ha, Bind.bind, Except.bind, Pure.pure, Except.pure, Except.map,
          throw, throwThe, MonadExceptOf.throw]
      | some batch =>
        have h := ih (i + 1) (acc + matchCount (batch.map fun img => argmax (fmodel img)) label)
        cases hv₁ : valLoop fmodel (some a) bs₁ s₁ rest (i + 1)
            (acc + matchCount (batch.map fun img => argmax (fmodel img)) label) with
        | error e =>
          rw [hv₁] at h
          cases hv₂ : valLoop fmodel (some a) bs₂ s₂ rest (i + 1)
              (acc + matchCount (batch.map fun img => argmax (fmodel img)) label) with
          | error e' =>
            rw [hv₂] at h; simp [Except.map] at h
            simp [valLoop, ha, hv₁, hv₂, Bind.bind, Except.bind, Pure.pure, Except.pure,
              Except.map, h]
          | ok t => rw [hv₂] at h; simp [Except.map] at h
        | ok t =>
          rw [hv₁] at h
          cases hv₂ : valLoop fmodel (some a) bs₂ s₂ rest (i + 1)
              (acc + matchCount (batch.map fun img => argmax (fmodel img)) label) with
          | error e' => rw [hv₂] at h; simp [Except.map] at h
          | ok t' =>
            rw [hv₂] at h; simp [Except.map] at h
            simp [valLoop, ha, hv₁, hv₂, Bind.bind, Except.bind, Pure.pure, Except.pure,
              Except.map, h]

/-- `validate` looks only at the first component of the loop result (and at
the emptiness of the loader), so loaders with identical loop counts and
identical emptiness validate identically. -/
theorem validate_congr {Img Img' : Type} (fmodel : Img → List Rat)
    (fmodel' : Img' → List Rat) (ds : List (List Img × List Nat))
    (ds' : List (List Img' × List Nat)) (n : Nat)
    (advs : Option (List (List Img))) (advs' : Option (List (List Img')))
    (bs₁ bs₂ : Nat) (s₁ s₂ : Bool)
    (hfst : (valLoop fmodel advs bs₁ s₁ ds 0 0).map Prod.fst =
      (valLoop fmodel' advs' bs₂ s₂ ds' 0 0).map Prod.fst)
    (hemp : ds.isEmpty = ds'.isEmpty) :
    validate fmodel ds n bs₁ advs s₁ = validate fmodel' ds' n bs₂ advs' s₂ := by
  cases hv₁ : valLoop fmodel advs bs₁ s₁ ds 0 0 with
  | error e =>
    rw [hv₁] at hfst
    cases hv₂ : valLoop fmodel' advs' bs₂ s₂ ds' 0 0 with
    | error e' =>
      rw [hv₂] at hfst; simp [Except.map] at hfst
      simp [validate, hv₁, hv₂, Bind.bind, Except.bind, hfst]
    | ok t => rw [hv₂] at hfst; simp [Except.map] at hfst
  | ok t =>
    rw [hv₁] at hfst
    cases hv₂ : valLoop fmodel' advs' bs₂ s₂ ds' 0 0 with
    | error e' => rw [hv₂] at hfst; simp [Except.map] at hfst
    | ok t' =>
      rw [hv₂] at hfst; simp [Except.map] at hfst
      obtain ⟨a₁, p₁, l₁⟩ := t
      obtain ⟨a₂, p₂, l₂⟩ := t'
      simp at hfst
      simp [validate, hv₁, hv₂, Bind.bind, Except.bind, hfst]
      rw [hemp]

/-! ## Claim C1 -/

/-- C1: for every model, dataset of batches, and nonzero `dataset_size`,
`validate` computes per-image predictions as the arg-max class index of the
model's probability output, counts elementwise matches against the batch
labels over all batches in order, and returns
`100 * total_matches / dataset_size`.  (The witness below instantiates the
spec's concrete scenario: 2 batches of 2 images, `dataset_size = 4`, labels
`[0,1,1,0]`, predictions `[0,1,0,0]`, result exactly `75.0`.) -/
theorem validate_accuracy {Img : Type} (fmodel : Img → List Rat)
    (dataset_loader : List (List Img × List Nat)) (dataset_size : Nat)
    (batch_size : Nat) (silent : Bool) (h : dataset_size ≠ 0) :
    validate fmodel dataset_loader dataset_size batch_size none silent =
      .ok (.val (100 * (totalMatches fmodel dataset_loader : Rat) / (dataset_size : Rat))) := by
  have hf := valLoop_none_fst fmodel batch_size silent dataset_loader 0 0
  cases hv : valLoop fmodel none batch_size silent dataset_loader 0 0 with
  | error e => rw [hv] at hf; simp [Except.map] at hf
  | ok t =>
    rw [hv] at hf; simp [Except.map] at hf
    obtain ⟨a, p, l⟩ := t
    simp at hf
    simp [validate, hv, Bind.bind, Except.bind, Pure.pure, Except.pure, h, hf]
    ring

/-- Witness for C1 at the spec's concrete scenario: `dataset_size = 4 ≠ 0`,
and on the 2×2 loader with labels `[0,1,1,0]` and model `f75` (predictions
`[0,1,0,0]`) the returned accuracy is exactly `75`. -/
theorem validate_accuracy_witness :
    (4 : Nat) ≠ 0 ∧ validate f75 ds75 4 4 none false = .ok (.val 75) := by
  refine ⟨by decide, ?_⟩
  have h := validate_accuracy f75 ds75 4 4 false (by decide)
  rw [h]
  norm_num [totalMatches, ds75, f75, matchCount, argmax, argmaxAux]

/-! ## Claim C2 -/

/-- Counterexample to C2: with a non-empty loader (here the spec's own 2×2
scenario) and `dataset_size = 0`, `validate` does not fail — it silently
returns `+inf` (`acc` has been promoted to a numpy float by
`acc += np.sum(...)`, and numpy float division by zero only warns). -/
theorem validate_zero_size_counterexample :
    validate f75 ds75 0 4 none false = .ok .posInf := by rfl

/-- C2 amended: the final division by `dataset_size` is not guarded.  With
`dataset_size = 0`: an empty loader leaves `acc` a Python float and the
division by the integer `0` raises `ZeroDivisionError`, while a non-empty
loader makes `acc` a numpy float whose division by zero silently yields
`nan` (zero matches) or `+inf` (at least one match). -/
theorem validate_zero_denominator {Img : Type} (fmodel : Img → List Rat)
    (ds : List (List Img × List Nat)) (bs : Nat) (s : Bool) :
    validate fmodel ds 0 bs none s =
      if ds.isEmpty then Except.error PyErr.zeroDivisionError
      else Except.ok (if totalMatches fmodel ds = 0 then PyFloat.nan else PyFloat.posInf) := by
  have hf := valLoop_none_fst fmodel bs s ds 0 0
  cases hv : valLoop fmodel none bs s ds 0 0 with
  | error e => rw [hv] at hf; simp [Except.map] at hf
  | ok t =>
    rw [hv] at hf; simp [Except.map] at hf
    obtain ⟨a, p, l⟩ := t
    simp at hf
    simp [validate, hv, Bind.bind, Except.bind, Pure.pure, Except.pure, hf, throw,
      throwThe, MonadExceptOf.throw]

/-! ## Claim C9 -/

/-- C9: two runs of `validate` that differ only in the progress-reporting
configuration — the `silent` flag and the `batch_size` argument, which feed
only the progress display — return exactly the same value (and raise the
same errors). -/
theorem validate_progress_irrelevant {Img : Type} (fmodel : Img → List Rat)
    (ds : List (List Img × List Nat)) (n : Nat)
    (advs : Option (List (List Img))) (bs₁ bs₂ : Nat) (s₁ s₂ : Bool) :
    validate fmodel ds n bs₁ advs s₁ = validate fmodel ds n bs₂ advs s₂ :=
  validate_congr fmodel fmodel ds ds n advs advs bs₁ bs₂ s₁ s₂
    (valLoop_fst_congr fmodel advs bs₁ bs₂ s₁ s₂ ds 0 0) rfl

/-! ## Claim C6 -/

/-- With an adversarial set `A` long enough for the remaining batches, the
loop accumulates exactly the match count of the loader whose batch images
are replaced by the aligned batches of `A` (labels untouched). -/
theorem valLoop_advs_fst {Img : Type} (fmodel : Img → List Rat)
    (A : List (List Img)) (bs : Nat) (s : Bool) :
    ∀ (ds : List (List Img × List Nat)) (i acc : Nat), i + ds.length ≤ A.length →
    (valLoop fmodel (some A) bs s ds i acc).map Prod.fst =
      .ok (acc + totalMatches fmodel
        (List.zipWith (fun ab (b : List Img × List Nat) => (ab, b.2)) (A.drop i) ds)) := by
  intro ds
  induction ds with
  | nil => intro i acc h; simp [valLoop, totalMatches, Except.map]
  | cons b rest ih =>
    intro i acc h
    obtain ⟨image, label⟩ := b
    have hi : i < A.length := by simp at h; omega
    have ha : A[i]? = some A[i] := List.getElem?_eq_getElem hi
    have hdrop : A.drop i = A[i] :: A.drop (i + 1) := List.drop_eq_getElem_cons hi
    have hrec := ih (i + 1)
      (acc + matchCount ((A[i]).map fun img => argmax (fmodel img)) label)
      (by simp at h ⊢; omega)
    cases hv : valLoop fmodel (some A) bs s rest (i + 1)
        (acc + matchCount ((A[i]).map fun img => argmax (fmodel img)) label) with
    | error e => rw [hv] at hrec; simp [Except.map] at hrec
    | ok t =>
      rw [hv] at hrec
      simp only [Except.map] at hrec
      injection hrec with hrec
      have hz : List.zipWith (fun ab (b : List Img × List Nat) => (ab, b.2))
          (A.drop i) ((image, label) :: rest) =
          (A[i], label) :: List.zipWith (fun ab (b : List Img × List Nat) => (ab, b.2))
            (A.drop (i + 1)) rest := by
        rw [hdrop]; rfl
      simp [valLoop, ha, hv, Bind.bind, Except.bind, Pure.pure, Except.pure, Except.map,
        totalMatches, hz, hrec]
      simp [totalMatches] at hrec ⊢
      omega

/-- C6: when an adversarial set index-aligned with the dataset is supplied,
`validate` behaves exactly as validating the dataset whose batch `i` images
have been replaced by `adversarial_set[i]` — the images fed to the model
come from the adversarial set only, while the labels compared against are
always those of dataset batch `i`. -/
theorem validate_advs_images {Img : Type} (fmodel : Img → List Rat)
    (ds : List (List Img × List Nat)) (A : List (List Img)) (n bs : Nat)
    (s : Bool) (hlen : A.length = ds.length) :
    validate fmodel ds n bs (some A) s =
      validate fmodel
        (List.zipWith (fun ab (b : List Img × List Nat) => (ab, b.2)) A ds) n bs none s := by
  apply validate_congr
  · rw [valLoop_advs_fst fmodel A bs s ds 0 0 (by omega),
      valLoop_none_fst fmodel bs s _ 0 0]
    simp
  · cases ds with
    | nil => simp
    | cons b tl =>
      cases A with
      | nil => simp at hlen
      | cons ab atl => simp

/-- Witness for C6: on the 2-batch loader `ds75` with an aligned 2-batch
adversarial set, validating the adversaries equals validating the loader
with its images replaced by the adversarial batches. -/
theorem validate_advs_images_witness :
    ([[4, 1], [5, 6]] : List (List Nat)).length = ds75.length ∧
    validate f75 ds75 4 4 (some [[4, 1], [5, 6]]) false =
      validate f75 [([4, 1], [0, 1]), ([5, 6], [1, 0])] 4 4 none false := by
  refine ⟨by decide, ?_⟩
  have h := validate_advs_images f75 ds75 [[4, 1], [5, 6]] 4 4 false (by decide)
  simpa [ds75] using h

/-! ## Claim C7 -/

/-- Concatenating the chunks gives back the original sequence. -/
theorem chunks_flatten {α : Type} (k : Nat) (xs : List α) :
    (chunks k xs).flatten = xs := by
  induction xs using chunks.induct k with
  | case1 => simp [chunks]
  | case2 x xs ih => simp [chunks, ih]

/-- The total arg-max match count of a chunked item sequence is the count of
correctly predicted items, independently of the chunk size. -/
theorem totalMatches_batchify {Img : Type} (fmodel : Img → List Rat) (k : Nat)
    (xs : List (Img × Nat)) :
    totalMatches fmodel (batchify k xs) =
      xs.countP fun p => argmax (fmodel p.1) = p.2 := by
  have hchunk : ∀ c : List (Img × Nat),
      matchCount (c.unzip.1.map fun img => argmax (fmodel img)) c.unzip.2 =
        c.countP fun p => argmax (fmodel p.1) = p.2 := by
    intro c
    simp [matchCount, List.unzip_eq_map, List.map_map, List.zip_map', List.countP_map]
    rfl
  unfold totalMatches batchify
  rw [List.map_map]
  simp only [Function.comp_def]
  rw [List.map_congr_left fun c _ => hchunk c, ← List.countP_flatten, chunks_flatten]

/-- C7: for every deterministic model and fixed sequence of labeled images
with fixed `dataset_size`, `validate` returns the same accuracy under any
two chunk-size partitions of the sequence into batches — in particular
batches of size 1 versus batches of size 4. -/
theorem validate_batch_partition_invariant {Img : Type} (fmodel : Img → List Rat)
    (items : List (Img × Nat)) (dataset_size : Nat) (k₁ k₂ : Nat)
    (bs₁ bs₂ : Nat) (s₁ s₂ : Bool) :
    validate fmodel (batchify k₁ items) dataset_size bs₁ none s₁ =
      validate fmodel (batchify k₂ items) dataset_size bs₂ none s₂ := by
  apply validate_congr
  · rw [valLoop_none_fst, valLoop_none_fst, totalMatches_batchify, totalMatches_batchify]
  · cases items <;> simp [batchify, chunks]

/-! ## Claim C3 -/

/-- A name outside the five fixed keys is not in the dictionary. -/
theorem lookup_interpolation_none (name : String)
    (h : name ∉ ["INTER_NEAREST", "INTER_LINEAR", "INTER_AREA", "INTER_CUBIC",
      "INTER_LANCZOS4"]) :
    interpolation_methods.lookup name = none := by
  simp at h
  obtain ⟨h1, h2, h3, h4, h5⟩ := h
  simp [interpolation_methods, List.lookup, beq_eq_false_iff_ne.mpr h1,
    beq_eq_false_iff_ne.mpr h2, beq_eq_false_iff_ne.mpr h3,
    beq_eq_false_iff_ne.mpr h4, beq_eq_false_iff_ne.mpr h5]

/-- C3: for every interpolation name outside
`{INTER_NEAREST, INTER_LINEAR, INTER_AREA, INTER_CUBIC, INTER_LANCZOS4}`,
`scale_adv` fails with the dictionary lookup's `KeyError` — the same error
for every input and scale, raised before any image is resized, so no
partially resized batch sequence is ever returned. -/
theorem scale_adv_unknown_kernel (K : Kernel) (advs : List (List Arr3))
    (s : Rat) (name : String)
    (h : name ∉ ["INTER_NEAREST", "INTER_LINEAR", "INTER_AREA", "INTER_CUBIC",
      "INTER_LANCZOS4"]) :
    scale_adv K advs s name = .error (.keyError name) := by
  simp [scale_adv, lookup_interpolation_none name h, Bind.bind, Except.bind, throw,
    throwThe, MonadExceptOf.throw]

/-- Witness for C3: `"INTER_FOO"` is outside the enumeration and makes
`scale_adv` fail with its `KeyError`. -/
theorem scale_adv_unknown_kernel_witness :
    ("INTER_FOO" ∉ ["INTER_NEAREST", "INTER_LINEAR", "INTER_AREA", "INTER_CUBIC",
      "INTER_LANCZOS4"]) ∧
    scale_adv trivKern [[img3x2x2]] 1 "INTER_FOO" = .error (.keyError "INTER_FOO") :=
  ⟨by decide, scale_adv_unknown_kernel trivKern [[img3x2x2]] 1 "INTER_FOO" (by decide)⟩

/-! ## Claim C4 -/

/-- `cv2.resize` with a non-positive scale factor always raises: either the
source is already empty (first assertion) or the `inv_scale > 0` assertion
fires. -/
theorem cv2Resize_nonpos (K : Kernel) (iv : Nat) (s : Rat) (src : Arr3)
    (hs : s ≤ 0) : cv2Resize K iv s src = .error .cvError := by
  simp [cv2Resize, hs]

/-- A non-empty batch hits the failing resize on its first image. -/
theorem scaleBatch_nonpos (K : Kernel) (iv : Nat) (s : Rat) (hs : s ≤ 0)
    (a : Arr3) (rest : List Arr3) :
    scaleBatch K iv s (a :: rest) = .error .cvError := by
  simp [scaleBatch, cv2Resize_nonpos K iv s _ hs, Bind.bind, Except.bind]

/-- If some batch contains an image, the whole nested loop fails. -/
theorem scaleAll_nonpos (K : Kernel) (iv : Nat) (s : Rat) (hs : s ≤ 0) :
    ∀ advs : List (List Arr3), (∃ b ∈ advs, b ≠ []) →
    scaleAll K iv s advs = .error .cvError := by
  intro advs
  induction advs with
  | nil => intro h; simp at h
  | cons b rest ih =>
    intro h
    cases b with
    | nil =>
      have hrest : ∃ b ∈ rest, b ≠ [] := by
        rcases h with ⟨b', hb', hne⟩
        rcases List.mem_cons.mp hb' with rfl | hmem
        · exact absurd rfl hne
        · exact ⟨b', hmem, hne⟩
      simp [scaleAll, scaleBatch, ih hrest, Bind.bind, Except.bind, Pure.pure, Except.pure]
    | cons a tl =>
      simp [scaleAll, scaleBatch_nonpos K iv s hs a tl, Bind.bind, Except.bind]

/-- Counterexample to C4: with the recognized kernel name `INTER_NEAREST`
and `resize_scale = 0 ≤ 0`, an empty input sequence makes `scale_adv`
return `[]` — no `InvalidScale`-class error is raised, because the scale is
never checked up front and the loop body never runs. -/
theorem scale_adv_nonpos_scale_counterexample :
    scale_adv trivKern [] 0 "INTER_NEAREST" = .ok [] := rfl

/-- C4 amended: `scale_adv` performs no scale check of its own; with a
recognized interpolation name and `resize_scale ≤ 0` it fails — with the
`cv2.error` raised by `cv2.resize`'s own assertions — exactly when the input
contains at least one image, and returns the empty mirror structure when the
input has no images. -/
theorem scale_adv_nonpos_scale (K : Kernel) (advs : List (List Arr3))
    (s : Rat) (name : String) (iv : Nat)
    (hlk : interpolation_methods.lookup name = some iv)
    (hs : s ≤ 0) (hne : ∃ b ∈ advs, b ≠ []) :
    scale_adv K advs s name = .error .cvError := by
  simp [scale_adv, hlk, Bind.bind, Except.bind, Pure.pure, Except.pure,
    scaleAll_nonpos K iv s hs advs hne]

/-- Witness for C4 (amended): all hypotheses hold at `INTER_NEAREST`,
scale `0`, and one non-empty batch, and `scale_adv` fails with `cv2.error`. -/
theorem scale_adv_nonpos_scale_witness :
    interpolation_methods.lookup "INTER_NEAREST" = some 0 ∧ (0 : Rat) ≤ 0 ∧
    (∃ b ∈ [[img3x2x2]], b ≠ []) ∧
    scale_adv trivKern [[img3x2x2]] 0 "INTER_NEAREST" = .error .cvError := by
  refine ⟨rfl, le_refl 0, ⟨[img3x2x2], by simp, by simp⟩, ?_⟩
  exact scale_adv_nonpos_scale trivKern [[img3x2x2]] 0 "INTER_NEAREST" 0 rfl (le_refl 0)
    ⟨[img3x2x2], by simp, by simp⟩

/-! ## Claim C5 -/

/-- Dimensions of a successful `cv2.resize`: rounded scaled height and
width, channels untouched. -/
theorem cv2Resize_ok_dims (K : Kernel) (iv : Nat) (s : Rat) (src r : Arr3)
    (h : cv2Resize K iv s src = .ok r) :
    r.d0 = (cvRound (src.d0 * s)).toNat ∧ r.d1 = (cvRound (src.d1 * s)).toNat ∧
    r.d2 = src.d2 := by
  unfold cv2Resize at h
  split at h
  · exact absurd h (by simp)
  · split at h
    · exact absurd h (by simp)
    · split at h
      · exact absurd h (by simp)
      · injection h with h
        subst h
        exact ⟨rfl, rfl, rfl⟩

/-- A successful batch loop pairs each output image with its input image,
with the output channel count equal to the input channel count. -/
theorem scaleBatch_ok_channels (K : Kernel) (iv : Nat) (s : Rat) :
    ∀ (batch out : List Arr3), scaleBatch K iv s batch = .ok out →
    List.Forall₂ (fun (o a : Arr3) => o.d0 = a.d0) out batch := by
  intro batch
  induction batch with
  | nil => intro out h; simp [scaleBatch] at h; simp [← h]
  | cons a rest ih =>
    intro out h
    cases hr : cv2Resize K iv s (moveaxis02 a) with
    | error e => simp [scaleBatch, hr, Bind.bind, Except.bind] at h
    | ok r =>
      cases hrest : scaleBatch K iv s rest with
      | error e => simp [scaleBatch, hr, hrest, Bind.bind, Except.bind] at h
      | ok rs =>
        simp [scaleBatch, hr, hrest, Bind.bind, Except.bind, Pure.pure, Except.pure] at h
        subst h
        have hd := cv2Resize_ok_dims K iv s (moveaxis02 a) r hr
        refine List.Forall₂.cons ?_ (ih rs hrest)
        show (moveaxis20 r).d0 = a.d0
        simp [moveaxis20, hd.2.2, moveaxis02]

/-- A successful outer loop pairs batches one to one, image counts and
channel counts preserved. -/
theorem scaleAll_ok_structure (K : Kernel) (iv : Nat) (s : Rat) :
    ∀ (advs out : List (List Arr3)), scaleAll K iv s advs = .ok out →
    List.Forall₂ (fun (ob ib : List Arr3) => ob.length = ib.length ∧
      List.Forall₂ (fun (o a : Arr3) => o.d0 = a.d0) ob ib) out advs := by
  intro advs
  induction advs with
  | nil => intro out h; simp [scaleAll] at h; simp [← h]
  | cons b rest ih =>
    intro out h
    cases hb : scaleBatch K iv s b with
    | error e => simp [scaleAll, hb, Bind.bind, Except.bind] at h
    | ok rb =>
      cases hrest : scaleAll K iv s rest with
      | error e => simp [scaleAll, hb, hrest, Bind.bind, Except.bind] at h
      | ok rs =>
        simp [scaleAll, hb, hrest, Bind.bind, Except.bind, Pure.pure, Except.pure] at h
        subst h
        have hch := scaleBatch_ok_channels K iv s b rb hb
        exact List.Forall₂.cons ⟨hch.length_eq, hch⟩ (ih rs hrest)

/-- Counterexample to C5: one batch with one 3-channel 10×10 image, the
recognized kernel `INTER_NEAREST`, and the positive scale `1/100`: the
rounded destination size is `0 × 0`, so `cv2.resize` raises and `scale_adv`
returns no output at all — for this positive scale there is no output whose
structure could mirror the input. -/
theorem scale_adv_structure_counterexample :
    scale_adv trivKern [[img3x10x10]] (1/100) "INTER_NEAREST" = .error .cvError := by
  have hres : cv2Resize trivKern 0 (1/100) (moveaxis02 img3x10x10) = .error .cvError := by
    norm_num [cv2Resize, moveaxis02, img3x10x10, cvRound]
  have hlk : interpolation_methods.lookup "INTER_NEAREST" = some 0 := rfl
  simp [scale_adv, hlk, scaleAll, scaleBatch, Bind.bind, Except.bind, Pure.pure,
    Except.pure, ← one_div, hres]

/-- C5 amended: whenever `scale_adv` returns an output (in particular for
every positive scale and valid kernel name for which every image's rounded
destination size is non-empty — but not for all positive scales, see the
counterexample), the output has exactly the input's batch count, each output
batch has the input batch's image count, and each output image keeps its
input image's channel count. -/
theorem scale_adv_ok_structure (K : Kernel) (advs : List (List Arr3)) (s : Rat)
    (name : String) (out : List (List Arr3))
    (h : scale_adv K advs s name = .ok out) :
    out.length = advs.length ∧
    List.Forall₂ (fun (ob ib : List Arr3) => ob.length = ib.length ∧
      List.Forall₂ (fun (o a : Arr3) => o.d0 = a.d0) ob ib) out advs := by
  cases hlk : interpolation_methods.lookup name with
  | none =>
    simp [scale_adv, hlk, Bind.bind, Except.bind, throw, throwThe,
      MonadExceptOf.throw] at h
  | some iv =>
    simp [scale_adv, hlk, Bind.bind, Except.bind, Pure.pure, Except.pure] at h
    have hs := scaleAll_ok_structure K iv s advs out h
    exact ⟨hs.length_eq, hs⟩

/-- Witness for C5 (amended): a concrete successful run — one batch, one
3×2×2 image, scale 1, `INTER_NEAREST` — whose output mirrors the structure
and keeps the channel count. -/
theorem scale_adv_ok_structure_witness :
    scale_adv trivKern [[img3x2x2]] 1 "INTER_NEAREST" =
      .ok [[⟨3, 2, 2, [0, 0, 0, 0, 0, 0, 0, 0, 0, 0, 0, 0]⟩]] ∧
    ([[(⟨3, 2, 2, [0, 0, 0, 0, 0, 0, 0, 0, 0, 0, 0, 0]⟩ : Arr3)]].length =
      [[img3x2x2]].length ∧
    List.Forall₂ (fun (ob ib : List Arr3) => ob.length = ib.length ∧
      List.Forall₂ (fun (o a : Arr3) => o.d0 = a.d0) ob ib)
      [[⟨3, 2, 2, [0, 0, 0, 0, 0, 0, 0, 0, 0, 0, 0, 0]⟩]] [[img3x2x2]]) := by
  have hres : cv2Resize trivKern 0 1 (moveaxis02 img3x2x2) = .ok ⟨2, 2, 3, []⟩ := by
    norm_num [cv2Resize, moveaxis02, img3x2x2, cvRound, trivKern]
    decide
  have hm : moveaxis20 ⟨2, 2, 3, []⟩ =
      (⟨3, 2, 2, [0, 0, 0, 0, 0, 0, 0, 0, 0, 0, 0, 0]⟩ : Arr3) := rfl
  have hlk : interpolation_methods.lookup "INTER_NEAREST" = some 0 := rfl
  have hev : scale_adv trivKern [[img3x2x2]] 1 "INTER_NEAREST" =
      .ok [[⟨3, 2, 2, [0, 0, 0, 0, 0, 0, 0, 0, 0, 0, 0, 0]⟩]] := by
    simp [scale_adv, hlk, scaleAll, scaleBatch, hres, hm, Bind.bind, Except.bind,
      Pure.pure, Except.pure]
  exact ⟨hev, scale_adv_ok_structure trivKern [[img3x2x2]] 1 "INTER_NEAREST" _ hev⟩

/-! ## Claim C8 -/

/-- `cvRound` of an integer value is that value. -/
theorem cvRound_natCast (n : Nat) : cvRound (n : Rat) = n := by
  simp [cvRound]

/-- `cv2.resize` succeeds when the source is non-empty, the scale positive,
and both rounded destination dimensions positive, and then its output has
exactly the rounded dimensions and the source's channel count. -/
theorem cv2Resize_ok_of (K : Kernel) (iv : Nat) (s : Rat) (src : Arr3)
    (hs : 0 < s) (h0 : src.d0 ≠ 0) (h1 : src.d1 ≠ 0)
    (hr0 : 0 < cvRound (src.d0 * s)) (hr1 : 0 < cvRound (src.d1 * s)) :
    cv2Resize K iv s src =
      .ok ⟨(cvRound (src.d0 * s)).toNat, (cvRound (src.d1 * s)).toNat, src.d2,
        K iv s src (cvRound (src.d0 * s)).toNat (cvRound (src.d1 * s)).toNat⟩ := by
  unfold cv2Resize
  rw [if_neg (by simp [h0, h1]), if_neg (not_le.mpr hs),
    if_neg (by push_neg; exact ⟨hr0, hr1⟩)]

/-- The batch loop succeeds on images with non-empty source and destination
sizes, producing images with the rounded spatial dimensions and unchanged
channel count. -/
theorem scaleBatch_ok_of (K : Kernel) (iv : Nat) (s : Rat) (hs : 0 < s) :
    ∀ batch : List Arr3,
    (∀ a ∈ batch, a.d1 ≠ 0 ∧ a.d2 ≠ 0 ∧
      0 < cvRound (a.d1 * s) ∧ 0 < cvRound (a.d2 * s)) →
    ∃ out, scaleBatch K iv s batch = .ok out ∧
      List.Forall₂ (fun (o a : Arr3) => o.d0 = a.d0 ∧
        o.d1 = (cvRound (a.d1 * s)).toNat ∧ o.d2 = (cvRound (a.d2 * s)).toNat)
        out batch := by
  intro batch
  induction batch with
  | nil => intro _; exact ⟨[], by simp [scaleBatch]⟩
  | cons a rest ih =>
    intro h
    obtain ⟨h1, h2, h3, h4⟩ := h a (List.mem_cons_self _ _)
    obtain ⟨out, hout, hfa⟩ := ih fun x hx => h x (List.mem_cons_of_mem _ hx)
    have hres := cv2Resize_ok_of K iv s (moveaxis02 a) hs h1 h2 h3 h4
    refine ⟨moveaxis20 ⟨(cvRound (a.d1 * s)).toNat, (cvRound (a.d2 * s)).toNat, a.d0,
      K iv s (moveaxis02 a) (cvRound (a.d1 * s)).toNat (cvRound (a.d2 * s)).toNat⟩ :: out,
      ?_, ?_⟩
    · simp [scaleBatch, hres, hout, Bind.bind, Except.bind, Pure.pure, Except.pure]
      rfl
    · exact List.Forall₂.cons ⟨rfl, rfl, rfl⟩ hfa

/-- The outer loop succeeds under the same per-image conditions. -/
theorem scaleAll_ok_of (K : Kernel) (iv : Nat) (s : Rat) (hs : 0 < s) :
    ∀ advs : List (List Arr3),
    (∀ b ∈ advs, ∀ a ∈ b, a.d1 ≠ 0 ∧ a.d2 ≠ 0 ∧
      0 < cvRound (a.d1 * s) ∧ 0 < cvRound (a.d2 * s)) →
    ∃ out, scaleAll K iv s advs = .ok out ∧
      List.Forall₂ (List.Forall₂ fun (o a : Arr3) => o.d0 = a.d0 ∧
        o.d1 = (cvRound (a.d1 * s)).toNat ∧ o.d2 = (cvRound (a.d2 * s)).toNat)
        out advs := by
  intro advs
  induction advs with
  | nil => intro _; exact ⟨[], by simp [scaleAll]⟩
  | cons b rest ih =>
    intro h
    obtain ⟨rb, hrb, hfab⟩ := scaleBatch_ok_of K iv s hs b (h b (List.mem_cons_self _ _))
    obtain ⟨out, hout, hfa⟩ := ih fun x hx => h x (List.mem_cons_of_mem _ hx)
    exact ⟨rb :: out,
      by simp [scaleAll, hrb, hout, Bind.bind, Except.bind, Pure.pure, Except.pure],
      List.Forall₂.cons hfab hfa⟩

/-- C8: for every input whose images have positive height and width and
every valid kernel name, `scale_adv` with `resize_scale = 1.0` succeeds and
returns images whose spatial dimensions (height and width) are exactly those
of the corresponding input images. -/
theorem scale_adv_scale_one (K : Kernel) (advs : List (List Arr3))
    (name : String) (iv : Nat)
    (hlk : interpolation_methods.lookup name = some iv)
    (hpos : ∀ b ∈ advs, ∀ a ∈ b, 0 < a.d1 ∧ 0 < a.d2) :
    ∃ out, scale_adv K advs 1 name = .ok out ∧
      List.Forall₂ (List.Forall₂ fun (o a : Arr3) => o.d1 = a.d1 ∧ o.d2 = a.d2)
        out advs := by
  obtain ⟨out, hout, hfa⟩ := scaleAll_ok_of K iv 1 one_pos advs (by
    intro b hb a ha
    obtain ⟨hp1, hp2⟩ := hpos b hb a ha
    refine ⟨by omega, by omega, ?_, ?_⟩ <;>
      simp [cvRound_natCast] <;> omega)
  refine ⟨out, ?_, ?_⟩
  · simp [scale_adv, hlk, Bind.bind, Except.bind, Pure.pure, Except.pure, hout]
  · refine hfa.imp fun ob ib hb => hb.imp fun o a hoa => ?_
    obtain ⟨-, hd1, hd2⟩ := hoa
    simp [cvRound_natCast] at hd1 hd2
    exact ⟨hd1, hd2⟩

/-- Witness for C8: a concrete run with `INTER_LINEAR`, scale `1`, and one
3×2×2 image — the hypotheses hold and the output's spatial dimensions equal
the input's. -/
theorem scale_adv_scale_one_witness :
    interpolation_methods.lookup "INTER_LINEAR" = some 1 ∧
    (∀ b ∈ [[img3x2x2]], ∀ a ∈ b, 0 < a.d1 ∧ 0 < a.d2) ∧
    ∃ out, scale_adv trivKern [[img3x2x2]] 1 "INTER_LINEAR" = .ok out ∧
      List.Forall₂ (List.Forall₂ fun (o a : Arr3) => o.d1 = a.d1 ∧ o.d2 = a.d2)
        out [[img3x2x2]] :=
  ⟨rfl, by decide,
    scale_adv_scale_one trivKern [[img3x2x2]] "INTER_LINEAR" 1 rfl (by decide)⟩

/-! ## Claim C10 -/

/-- The store-passing batch loop only grows the store (it never writes to an
existing cell), and every reference it returns is fresh: at or beyond the
incoming store's length. -/
theorem scaleBatchSt_frame (K : Kernel) (iv : Nat) (s : Rat) :
    ∀ (b : List Nat) (st st' : Store) (rs : List Nat),
    scaleBatchSt K iv s st b = .ok (st', rs) →
    st <+: st' ∧ ∀ a ∈ rs, st.length ≤ a := by
  intro b
  induction b with
  | nil =>
    intro st st' rs h
    simp [scaleBatchSt] at h
    obtain ⟨h1, h2⟩ := h
    subst h1; subst h2
    exact ⟨List.prefix_refl _, by simp⟩
  | cons a rest ih =>
    intro st st' rs h
    cases hsrc : st[a]? with
    | none =>
      simp [scaleBatchSt, hsrc, Bind.bind, Except.bind, throw, throwThe,
        MonadExceptOf.throw] at h
    | some src =>
      cases hres : cv2Resize K iv s (moveaxis02 src) with
      | error e =>
        simp [scaleBatchSt, hsrc, hres, Bind.bind, Except.bind, Pure.pure,
          Except.pure] at h
      | ok r =>
        cases hrec : scaleBatchSt K iv s (st ++ [moveaxis20 r]) rest with
        | error e =>
          simp [scaleBatchSt, hsrc, hres, hrec, Bind.bind, Except.bind, Pure.pure,
            Except.pure] at h
        | ok t =>
          obtain ⟨st2, rs2⟩ := t
          simp [scaleBatchSt, hsrc, hres, hrec, Bind.bind, Except.bind, Pure.pure,
            Except.pure] at h
          obtain ⟨h1, h2⟩ := h
          subst h1; subst h2
          obtain ⟨hpre, haddr⟩ := ih (st ++ [moveaxis20 r]) st2 rs2 hrec
          refine ⟨(List.prefix_append st [moveaxis20 r]).trans hpre, ?_⟩
          intro x hx
          rcases List.mem_cons.mp hx with rfl | hmem
          · exact le_refl _
          · have hlen := haddr x hmem
            simp at hlen
            omega

/-- Same frame property for the store-passing outer loop. -/
theorem scaleAllSt_frame (K : Kernel) (iv : Nat) (s : Rat) :
    ∀ (advs : List (List Nat)) (st st' : Store) (out : List (List Nat)),
    scaleAllSt K iv s st advs = .ok (st', out) →
    st <+: st' ∧ ∀ b ∈ out, ∀ a ∈ b, st.length ≤ a := by
  intro advs
  induction advs with
  | nil =>
    intro st st' out h
    simp [scaleAllSt] at h
    obtain ⟨h1, h2⟩ := h
    subst h1; subst h2
    exact ⟨List.prefix_refl _, by simp⟩
  | cons b rest ih =>
    intro st st' out h
    cases hb : scaleBatchSt K iv s st b with
    | error e => simp [scaleAllSt, hb, Bind.bind, Except.bind] at h
    | ok t1 =>
      obtain ⟨st1, rb⟩ := t1
      cases hrest : scaleAllSt K iv s st1 rest with
      | error e => simp [scaleAllSt, hb, hrest, Bind.bind, Except.bind] at h
      | ok t2 =>
        obtain ⟨st2, rs⟩ := t2
        simp [scaleAllSt, hb, hrest, Bind.bind, Except.bind, Pure.pure, Except.pure] at h
        obtain ⟨h1, h2⟩ := h
        subst h1; subst h2
        obtain ⟨hpre1, haddr1⟩ := scaleBatchSt_frame K iv s b st st1 rb hb
        obtain ⟨hpre2, haddr2⟩ := ih st1 st2 rs hrest
        refine ⟨hpre1.trans hpre2, ?_⟩
        intro bb hbb x hx
        rcases List.mem_cons.mp hbb with rfl | hmem
        · exact haddr1 x hx
        · exact le_trans hpre1.length_le (haddr2 bb hmem x hx)

/-- C10: `scale_adv` mutates no input array — on success, every cell of the
incoming store keeps its value (the store is only extended), and every
reference in the returned nested sequence is fresh (allocated at or beyond
the old store's end), i.e. the result is a freshly built nested sequence. -/
theorem scale_adv_st_frame (K : Kernel) (st : Store) (advs : List (List Nat))
    (s : Rat) (name : String) (st' : Store) (out : List (List Nat))
    (h : scale_adv_st K st advs s name = .ok (st', out)) :
    (∀ i, i < st.length → st'[i]? = st[i]?) ∧
    ∀ b ∈ out, ∀ a ∈ b, st.length ≤ a := by
  cases hlk : interpolation_methods.lookup name with
  | none =>
    simp [scale_adv_st, hlk, Bind.bind, Except.bind, throw, throwThe,
      MonadExceptOf.throw] at h
  | some iv =>
    simp [scale_adv_st, hlk, Bind.bind, Except.bind, Pure.pure, Except.pure] at h
    obtain ⟨hpre, haddr⟩ := scaleAllSt_frame K iv s advs st st' out h
    refine ⟨?_, haddr⟩
    intro i hi
    obtain ⟨t, rfl⟩ := hpre
    exact List.getElem?_append_left hi

/-- Witness for C10: resizing one referenced 3×2×2 image at scale 1 with
`INTER_NEAREST` extends the one-cell store with a fresh array at index 1;
the original cell is untouched and the returned reference is fresh. -/
theorem scale_adv_st_frame_witness :
    scale_adv_st trivKern [img3x2x2] [[0]] 1 "INTER_NEAREST" =
      .ok ([img3x2x2, ⟨3, 2, 2, [0, 0, 0, 0, 0, 0, 0, 0, 0, 0, 0, 0]⟩], [[1]]) ∧
    ((∀ i, i < ([img3x2x2] : Store).length →
      ([img3x2x2, ⟨3, 2, 2, [0, 0, 0, 0, 0, 0, 0, 0, 0, 0, 0, 0]⟩] : Store)[i]? =
        ([img3x2x2] : Store)[i]?) ∧
    ∀ b ∈ [[1]], ∀ a ∈ b, ([img3x2x2] : Store).length ≤ a) := by
  have hres : cv2Resize trivKern 0 1 (moveaxis02 img3x2x2) = .ok ⟨2, 2, 3, []⟩ := by
    norm_num [cv2Resize, moveaxis02, img3x2x2, cvRound, trivKern]
    decide
  have hm : moveaxis20 ⟨2, 2, 3, []⟩ =
      (⟨3, 2, 2, [0, 0, 0, 0, 0, 0, 0, 0, 0, 0, 0, 0]⟩ : Arr3) := rfl
  have hev : scale_adv_st trivKern [img3x2x2] [[0]] 1 "INTER_NEAREST" =
      .ok ([img3x2x2, ⟨3, 2, 2, [0, 0, 0, 0, 0, 0, 0, 0, 0, 0, 0, 0]⟩], [[1]]) := by
    have hlk : interpolation_methods.lookup "INTER_NEAREST" = some 0 := rfl
    simp [scale_adv_st, hlk, scaleAllSt, scaleBatchSt, hres, hm, Bind.bind, Except.bind,
      Pure.pure, Except.pure]
  exact ⟨hev, scale_adv_st_frame trivKern [img3x2x2] [[0]] 1 "INTER_NEAREST" _ _ hev⟩

end AdvAttack
